import Mathlib

/-
Shallow embedding of the relay-bot control plane of mautrix-telegram
(src/mautrix_telegram/bot.py): chat registry, permission resolution,
command matching and routing, service-message handling and the update
dispatcher.  External collaborators (the Telethon client, the bridge
user store, the portal collaborator and the persistence layer) are
modelled as explicit environment functions; calls to them are recorded
in explicit call logs so that short-circuiting claims can be stated.
Machine integers (Telegram ids) are modelled as `Int`; Python
exceptions from the remote client are modelled with `Except`.
-/

set_option autoImplicit false

namespace TelegramBot

/-- Errors raised by the Telethon client.  `channelPrivate` and
`channelInvalid` model `ChannelPrivateError` and `ChannelInvalidError`;
`other n` stands for any other RPC error. -/
inductive TgError where
  | channelPrivate
  | channelInvalid
  | other (code : Nat)
  deriving DecidableEq

/-- The peer reference attached to a message (`TypePeer` in Telethon):
`PeerUser`, `PeerChat` (legacy group) or `PeerChannel` (supergroup/channel). -/
inductive TypePeer where
  | peerUser (user_id : Int)
  | peerChat (chat_id : Int)
  | peerChannel (channel_id : Int)
  deriving DecidableEq

/-- A participant record of a channel/supergroup, as returned by
`GetParticipantRequest` (`p.participant`): creator, admin, or any other
participant kind. -/
inductive ChannelParticipant where
  | creator
  | admin
  | member
  deriving DecidableEq

/-- The check made by the code, `isinstance(p.participant, (ChannelParticipantCreator,
ChannelParticipantAdmin))`. -/
def ChannelParticipant.isCreatorOrAdmin : ChannelParticipant → Bool
  | .creator => true
  | .admin => true
  | .member => false

/-- A participant record of a legacy group, from
`GetFullChatRequest(...).full_chat.participants.participants`. -/
inductive ChatParticipant where
  | creator (user_id : Int)
  | admin (user_id : Int)
  | plain (user_id : Int)
  deriving DecidableEq

/-- The `p.user_id` field of a legacy-group participant. -/
def ChatParticipant.user_id : ChatParticipant → Int
  | .creator i => i
  | .admin i => i
  | .plain i => i

/-- The check made by the code, `isinstance(p, (ChatParticipantCreator, ChatParticipantAdmin))`. -/
def ChatParticipant.isCreatorOrAdmin : ChatParticipant → Bool
  | .creator _ => true
  | .admin _ => true
  | .plain _ => false

/-- A row of the bridge-internal user store (`u.User.get_by_tgid`): only the
fields the bot reads. -/
structure UserRow where
  tgid : Int
  is_admin : Bool
  deriving DecidableEq

/-- A call to the persistence layer backing the chat registry (`BotChat`). -/
inductive DBCall where
  | insert (id : Int) (type : String)
  | deleteById (id : Int)
  deriving DecidableEq

/-- A call to an external collaborator made by the permission resolver:
the bridge-internal user store, `GetParticipantRequest`, or
`GetFullChatRequest`. -/
inductive ExtCall where
  | storeQuery (tgid : Int)
  | clientGetParticipant (channel_id user_id : Int)
  | clientGetFullChat (chat_id : Int)
  deriving DecidableEq

/-- The external environment seen by the bot: the bridge-internal user
store, the two live authority queries of the Telethon client, the
configured welcome message, and the replies produced by the portal and
invite handlers (which only touch external collaborators, never the
state of the bot itself). -/
structure Env where
  getUserByTgid : Int → Option UserRow
  getParticipant : Int → Int → Except TgError ChannelParticipant
  getFullChat : Int → Except TgError (List ChatParticipant)
  private_chat_message : Option String
  portalReplies : List String
  inviteReplies : String → List String

/-- The mutable state of the `Bot` object: the chat registry `self.chats`
(a dict from chat id to type string, modelled as an association list in
insertion order), the whitelist `self.tg_whitelist`, the
`whitelist_group_admins` option, and the identity of the bot itself. -/
structure BotState where
  chats : List (Int × String)
  tg_whitelist : List Int
  whitelist_group_admins : Bool
  tgid : Int
  tg_username : String

/-- Dict lookup `self.chats[id]` (first matching key). -/
def lookupChat : List (Int × String) → Int → Option String
  | [], _ => none
  | (i, t) :: rest, id => if i = id then some t else lookupChat rest id

/-- Dict deletion `del self.chats[id]` (removes the key if present). -/
def eraseChat : List (Int × String) → Int → List (Int × String)
  | [], _ => []
  | (i, t) :: rest, id => if i = id then eraseChat rest id else (i, t) :: eraseChat rest id

/-- Bot.add_chat: if the id is absent, insert it in memory and persist;
otherwise do nothing (no persistence write either). -/
def add_chat (st : BotState) (chat_id : Int) (chat_type : String) :
    BotState × List DBCall :=
  if (lookupChat st.chats chat_id).isSome then (st, [])
  else ({ st with chats := st.chats ++ [(chat_id, chat_type)] },
        [DBCall.insert chat_id chat_type])

/-- Bot.remove_chat: delete the id from the in-memory dict, swallowing the
`KeyError` when absent, then unconditionally call `BotChat.delete_by_id`. -/
def remove_chat (st : BotState) (chat_id : Int) : BotState × List DBCall :=
  ({ st with chats := eraseChat st.chats chat_id }, [DBCall.deleteById chat_id])

/-- The `for p in participants` loop of the legacy-group branch: return at
the first participant whose user_id matches; falling off the loop ends in
`return False`. -/
def findParticipantAuth : List ChatParticipant → Int → Bool
  | [], _ => false
  | p :: rest, tgid =>
    if p.user_id = tgid then p.isCreatorOrAdmin else findParticipantAuth rest tgid

/-- Step 3 of Bot._can_use_commands: the live authority check, reached when
the user is neither whitelisted nor a bridge admin.  Returns the decision
(or the propagated client error) together with the client calls made. -/
def group_admin_check (env : Env) (st : BotState) (chat : TypePeer) (tgid : Int) :
    Except TgError Bool × List ExtCall :=
  if st.whitelist_group_admins then
    match chat with
    | .peerChannel channel_id =>
      match env.getParticipant channel_id tgid with
      | .ok p => (.ok p.isCreatorOrAdmin, [ExtCall.clientGetParticipant channel_id tgid])
      | .error e => (.error e, [ExtCall.clientGetParticipant channel_id tgid])
    | .peerChat chat_id =>
      match env.getFullChat chat_id with
      | .ok participants =>
        (.ok (findParticipantAuth participants tgid), [ExtCall.clientGetFullChat chat_id])
      | .error e => (.error e, [ExtCall.clientGetFullChat chat_id])
    | .peerUser _ => (.ok false, [])
  else (.ok false, [])

/-- Bot._can_use_commands: whitelist short-circuit, then bridge-admin
promotion (appending to `self.tg_whitelist`), then the group-admin live
check.  The result carries the decision (or a propagated client error),
the new bot state, and the log of external calls in order. -/
def can_use_commands (env : Env) (st : BotState) (chat : TypePeer) (tgid : Int) :
    Except TgError Bool × BotState × List ExtCall :=
  if tgid ∈ st.tg_whitelist then (.ok true, st, [])
  else
    match env.getUserByTgid tgid with
    | some user =>
      if user.is_admin then
        (.ok true, { st with tg_whitelist := st.tg_whitelist ++ [user.tgid] },
         [ExtCall.storeQuery tgid])
      else
        let r := group_admin_check env st chat tgid
        (r.1, st, ExtCall.storeQuery tgid :: r.2)
    | none =>
      let r := group_admin_check env st chat tgid
      (r.1, st, ExtCall.storeQuery tgid :: r.2)

/-- An entry of the static relaybot whitelist configuration: a raw id or a
resolvable string identifier. -/
inductive WhitelistEntry where
  | int (id : Int)
  | str (s : String)

/-- The result of `client.get_input_entity` for a string whitelist entry. -/
inductive InputEntity where
  | inputUser (user_id : Int)
  | otherEntity

/-- Bot.init_permissions: build `tg_whitelist` from the configured whitelist,
resolving string entries through the client and dropping the ones that do
not resolve to a user. -/
def init_permissions (resolve : String → InputEntity) (whitelist : List WhitelistEntry) :
    List Int :=
  whitelist.foldl
    (fun acc entry =>
      match entry with
      | .int user_id => acc ++ [user_id]
      | .str s =>
        match resolve s with
        | .inputUser user_id => acc ++ [user_id]
        | .otherEntity => acc)
    []

/-- Python `str.lower`, on the ASCII range (character-wise lowercasing). -/
def lowerStr (s : String) : String := String.mk (s.data.map Char.toLower)

/-- Whether the first list is a prefix of the second (helper for
`startsWithStr`). -/
def isPrefixList : List Char → List Char → Bool
  | [], _ => true
  | _ :: _, [] => false
  | c :: cs, d :: ds => c == d && isPrefixList cs ds

/-- Python `str.startswith`: `startsWithStr s p` is true iff `p` is a prefix
of `s`. -/
def startsWithStr (s p : String) : Bool := isPrefixList p.data s.data

/-- Bot.match_command: lowercase the text, build the plain and the
bot-targeted command tokens, and accept on exact equality or on a
whitespace-delimited prefix match. -/
def match_command (tg_username : String) (text command : String) : Bool :=
  let text := lowerStr text
  let command := "/" ++ lowerStr command
  let command_targeted := command ++ "@" ++ lowerStr tg_username
  let is_plain_command := text == command || text == command_targeted
  if is_plain_command then true
  else
    let is_arg_command :=
      startsWithStr text (command ++ " ") || startsWithStr text (command_targeted ++ " ")
    if is_arg_command then true
    else false

/-- A service-message action (`message.action`): the three variants the bot
reacts to, and a catch-all for every other `MessageAction`. -/
inductive MessageAction where
  | chatAddUser (users : List Int)
  | chatDeleteUser (user_id : Int)
  | chatMigrateTo (channel_id : Int)
  | otherAction
  deriving DecidableEq

/-- A `MessageService` update payload: its target peer and its action. -/
structure ServiceMessage where
  to_id : TypePeer
  action : MessageAction
  deriving DecidableEq

/-- The peer-to-registry-key resolution at the top of
Bot.handle_service_message: channel and legacy-group peers map to an id
and a type string, a user peer makes the handler return early. -/
def resolveServicePeer : TypePeer → Option (Int × String)
  | .peerChannel channel_id => some (channel_id, "channel")
  | .peerChat chat_id => some (chat_id, "chat")
  | .peerUser _ => none

/-- Bot.handle_service_message: resolve the target peer to a chat id and
type (ignoring user peers), then dispatch on the action: add on a join
naming the bot, remove on a leave naming the bot, remove-then-add on a
migration, and ignore anything else. -/
def handle_service_message (st : BotState) (message : ServiceMessage) :
    BotState × List DBCall :=
  match resolveServicePeer message.to_id with
  | none => (st, [])
  | some (to_id, chat_type) =>
    match message.action with
    | .chatAddUser users =>
      if st.tgid ∈ users then add_chat st to_id chat_type else (st, [])
    | .chatDeleteUser user_id =>
      if user_id = st.tgid then remove_chat st to_id else (st, [])
    | .chatMigrateTo channel_id =>
      let r := remove_chat st to_id
      let r2 := add_chat r.1 channel_id "channel"
      (r2.1, r.2 ++ r2.2)
    | .otherAction => (st, [])

/-- The slice `text[text.index(" ") + 1:]`, with the `ValueError` of a
spaceless text giving the empty string. -/
def textAfterFirstSpace (text : String) : String :=
  go text.toList
where
  go : List Char → String
    | [] => ""
    | c :: rest => if c = ' ' then String.mk rest else go rest

/-- Bot.handle_command_id: the chat-kind-dependent identifier reply. -/
def handle_command_id (to_id : TypePeer) : String :=
  match to_id with
  | .peerChannel channel_id => "-100" ++ toString channel_id
  | .peerChat chat_id => toString (-chat_id)
  | .peerUser user_id =>
    "Your user ID is " ++ toString user_id ++ ".\n\n" ++
    "If you are trying to bridge a group chat to Matrix, you must run the command in " ++
    "the group, not here. **The ID above will not work** with `!tg bridge`."

/-- The fields of an ordinary `Message` that Bot.handle_command reads. -/
structure CmdMessage where
  text : String
  is_private : Bool
  to_id : TypePeer
  from_id : Int

/-- Bot.handle_command: route the text to `start`, `id`, or (outside private
chats) the gated `portal`/`invite` handlers, the latter two behind
`check_can_use_commands`.  Returns the updated state and the replies sent;
an uncaught error from the permission check propagates. -/
def handle_command (env : Env) (st : BotState) (message : CmdMessage) :
    Except TgError (BotState × List String) :=
  if match_command st.tg_username message.text "start" then
    .ok (st, match env.private_chat_message with
             | some pcm => [pcm]
             | none => [])
  else if match_command st.tg_username message.text "id" then
    .ok (st, [handle_command_id message.to_id])
  else if message.is_private then
    .ok (st, [])
  else
    let is_portal_cmd := match_command st.tg_username message.text "portal"
    let is_invite_cmd := match_command st.tg_username message.text "invite"
    if is_portal_cmd || is_invite_cmd then
      match can_use_commands env st message.to_id message.from_id with
      | (.error e, _, _) => .error e
      | (.ok false, st1, _) =>
        .ok (st1, ["You do not have the permission to use that command."])
      | (.ok true, st1, _) =>
        if is_portal_cmd then .ok (st1, env.portalReplies)
        else .ok (st1, env.inviteReplies (textAfterFirstSpace message.text))
    else .ok (st, [])

/-- A text entity attached to a message; the dispatcher only looks at
whether the first one is a `MessageEntityBotCommand` at offset 0. -/
inductive MessageEntity where
  | botCommand (offset length : Int)
  | otherEntity (offset : Int)
  deriving DecidableEq

/-- An ordinary (non-service) message as seen by the dispatcher. -/
structure PlainMessage where
  text : String
  is_private : Bool
  to_id : TypePeer
  from_id : Int
  entities : List MessageEntity

/-- The message payload of a new-message update. -/
inductive TLMessage where
  | service (m : ServiceMessage)
  | plain (m : PlainMessage)

/-- An inbound protocol update: the two new-message variants the bot
processes, and a catch-all for every other update kind. -/
inductive TLUpdate where
  | updateNewMessage (m : TLMessage)
  | updateNewChannelMessage (m : TLMessage)
  | otherUpdate

/-- The is_command test of the dispatcher: the message has entities, the
first one is a `MessageEntityBotCommand`, and its offset is 0. -/
def is_bot_command : List MessageEntity → Bool
  | MessageEntity.botCommand offset _ :: _ => offset == 0
  | _ => false

/-- Bot.update: process only new-message updates; hand service messages to
handle_service_message and bot-command messages to handle_command; return
False on every return path.  The result carries the returned Bool, the new
state, the persistence calls and the replies sent. -/
def update (env : Env) (st : BotState) (upd : TLUpdate) :
    Except TgError (Bool × BotState × List DBCall × List String) :=
  match upd with
  | .otherUpdate => .ok (false, st, [], [])
  | .updateNewMessage m | .updateNewChannelMessage m =>
    match m with
    | .service sm =>
      let r := handle_service_message st sm
      .ok (false, r.1, r.2, [])
    | .plain pm =>
      let is_command := is_bot_command pm.entities
      if is_command then
        match handle_command env st
            ⟨pm.text, pm.is_private, pm.to_id, pm.from_id⟩ with
        | .ok (st1, replies) => .ok (false, st1, [], replies)
        | .error e => .error e
      else .ok (false, st, [], [])

/-- A chat object returned by the bulk `GetChatsRequest`: either a
`ChatForbidden`, or a `Chat` with its `left`/`deactivated` flags. -/
inductive TLChat where
  | chatForbidden (id : Int)
  | chat (id : Int) (left deactivated : Bool)
  deriving DecidableEq

/-- The id of a chat object. -/
def TLChat.id : TLChat → Int
  | .chatForbidden i => i
  | .chat i _ _ => i

/-- The reconciliation test `isinstance(chat, ChatForbidden) or chat.left
or chat.deactivated`. -/
def TLChat.shouldRemove : TLChat → Bool
  | .chatForbidden _ => true
  | .chat _ left deactivated => left || deactivated

/-- The group half of Bot.post_login: walk the bulk response and remove
every chat reported forbidden, left or deactivated. -/
def reconcileGroups (st : BotState) : List TLChat → BotState × List DBCall
  | [] => (st, [])
  | c :: rest =>
    if c.shouldRemove then
      let r := remove_chat st c.id
      let r2 := reconcileGroups r.1 rest
      (r2.1, r.2 ++ r2.2)
    else reconcileGroups st rest

/-- The channel half of Bot.post_login: query each channel individually;
`ChannelPrivateError` and `ChannelInvalidError` remove the entry, any other
error aborts the loop and propagates (carried as the optional error). -/
def reconcileChannels (getChannels : Int → Except TgError Unit) (st : BotState) :
    List Int → BotState × List DBCall × Option TgError
  | [] => (st, [], none)
  | channel_id :: rest =>
    match getChannels channel_id with
    | .ok _ => reconcileChannels getChannels st rest
    | .error .channelPrivate =>
      let r := remove_chat st channel_id
      let r2 := reconcileChannels getChannels r.1 rest
      (r2.1, r.2 ++ r2.2.1, r2.2.2)
    | .error .channelInvalid =>
      let r := remove_chat st channel_id
      let r2 := reconcileChannels getChannels r.1 rest
      (r2.1, r.2 ++ r2.2.1, r2.2.2)
    | .error e => (st, [], some e)

/-- The startup reconciliation of Bot.post_login (its registry part): bulk
fetch the persisted legacy groups and purge the dead ones, then query each
persisted channel and purge the inaccessible ones.  A failed bulk fetch or
an unexpected per-channel error propagates with the registry state reached
so far. -/
def post_login_reconcile (getChats : List Int → Except TgError (List TLChat))
    (getChannels : Int → Except TgError Unit) (st : BotState) :
    BotState × List DBCall × Option TgError :=
  let chat_ids := (st.chats.filter (fun p => p.2 == "chat")).map (·.1)
  match getChats chat_ids with
  | .error e => (st, [], some e)
  | .ok response =>
    let r1 := reconcileGroups st response
    let channel_ids := (r1.1.chats.filter (fun p => p.2 == "channel")).map (·.1)
    let r2 := reconcileChannels getChannels r1.1 channel_ids
    (r2.1, r1.2 ++ r2.2.1, r2.2.2)

/-! Helper lemmas about the registry representation and shared sample
inputs used by witnesses. -/

/-- A sample environment: user 7 is a bridge admin, every live authority
query fails with a generic RPC error. -/
def sampleEnv : Env :=
  { getUserByTgid := fun t => if t = 7 then some ⟨7, true⟩ else none
    getParticipant := fun _ _ => .error (.other 0)
    getFullChat := fun _ => .error (.other 1)
    private_chat_message := none
    portalReplies := []
    inviteReplies := fun _ => [] }

/-- A sample bot state: chat 5 registered as a legacy group, user 5
whitelisted, group-admin whitelisting enabled. -/
def sampleState : BotState :=
  { chats := [(5, "chat")]
    tg_whitelist := [5]
    whitelist_group_admins := true
    tgid := 100
    tg_username := "mybot" }

theorem lookupChat_eraseChat_self (l : List (Int × String)) (id : Int) :
    lookupChat (eraseChat l id) id = none := by
  induction l with
  | nil => rfl
  | cons p rest ih =>
    obtain ⟨i, t⟩ := p
    by_cases h : i = id
    · simpa [eraseChat, h] using ih
    · simpa [eraseChat, lookupChat, h] using ih

theorem lookupChat_eraseChat_none {l : List (Int × String)} {x : Int} (id : Int)
    (h : lookupChat l x = none) : lookupChat (eraseChat l id) x = none := by
  induction l with
  | nil => rfl
  | cons p rest ih =>
    obtain ⟨i, t⟩ := p
    simp only [lookupChat] at h
    by_cases hi : i = id
    · simp only [eraseChat, if_pos hi]
      by_cases hx : i = x
      · simp [hx] at h
      · exact ih (by simpa [hx] using h)
    · by_cases hx : i = x
      · simp [hx] at h
      · simp only [eraseChat, if_neg hi, lookupChat, if_neg hx]
        exact ih (by simpa [hx] using h)

theorem eraseChat_of_absent {l : List (Int × String)} {id : Int}
    (h : lookupChat l id = none) : eraseChat l id = l := by
  induction l with
  | nil => rfl
  | cons p rest ih =>
    obtain ⟨i, t⟩ := p
    simp only [lookupChat] at h
    by_cases hi : i = id
    · simp [hi] at h
    · simp only [eraseChat, if_neg hi]
      rw [ih (by simpa [hi] using h)]

theorem lookupChat_append_absent {l : List (Int × String)} {id : Int} (t : String)
    (h : lookupChat l id = none) : lookupChat (l ++ [(id, t)]) id = some t := by
  induction l with
  | nil => simp [lookupChat]
  | cons p rest ih =>
    obtain ⟨i, s⟩ := p
    simp only [lookupChat] at h
    by_cases hi : i = id
    · simp [hi] at h
    · simp only [List.cons_append, lookupChat, if_neg hi]
      exact ih (by simpa [hi] using h)

theorem lookupChat_append_ne {x id : Int} (l : List (Int × String)) (t : String)
    (h : x ≠ id) : lookupChat (l ++ [(id, t)]) x = lookupChat l x := by
  induction l with
  | nil =>
    have hne : ¬id = x := fun hc => h hc.symm
    simp only [List.nil_append, lookupChat, if_neg hne]
  | cons p rest ih =>
    obtain ⟨i, s⟩ := p
    by_cases hi : i = x
    · simp [lookupChat, hi]
    · simp only [List.cons_append, lookupChat, if_neg hi]
      exact ih

/-- Shared form of the whitelist short-circuit, used both for the claim
itself and inside the admin-promotion proof. -/
theorem can_use_commands_mem {st : BotState} {tgid : Int} (env : Env) (chat : TypePeer)
    (h : tgid ∈ st.tg_whitelist) :
    can_use_commands env st chat tgid = (.ok true, st, []) := by
  simp [can_use_commands, h]

/-! Claim theorems. -/

/-- C5: for every (chat, user) pair, if the user id is already in the
whitelist (the union of the configured entries and the promoted admins,
all stored in `tg_whitelist`), can_use_commands returns true immediately,
leaves the state unchanged, and makes no external call: neither the
bridge-internal user store nor the remote client is invoked (the call log
is empty). -/
theorem can_use_commands_whitelist_short_circuit (env : Env) (st : BotState)
    (chat : TypePeer) (tgid : Int) (h : tgid ∈ st.tg_whitelist) :
    can_use_commands env st chat tgid = (.ok true, st, []) :=
  can_use_commands_mem env chat h

/-- Witness for C5: whitelisted user 5 is allowed with no external calls. -/
theorem can_use_commands_whitelist_short_circuit_witness :
    (5 : Int) ∈ sampleState.tg_whitelist ∧
    can_use_commands sampleEnv sampleState (.peerChannel 1) 5 = (.ok true, sampleState, []) :=
  ⟨by decide,
   can_use_commands_whitelist_short_circuit sampleEnv sampleState (.peerChannel 1) 5 (by decide)⟩

/-- C9: a user id not in the whitelist but flagged admin in the
bridge-internal user store is appended to the runtime whitelist by the
first can_use_commands call, which returns true after exactly one store
query; a second call for the same user (in any chat) returns true through
the whitelist branch with an empty call log, so the store is not queried
again. -/
theorem can_use_commands_admin_promotion (env : Env) (st : BotState)
    (chat chat2 : TypePeer) (tgid : Int) (u : UserRow)
    (h1 : tgid ∉ st.tg_whitelist)
    (h2 : env.getUserByTgid tgid = some u)
    (h3 : u.is_admin = true)
    (h4 : u.tgid = tgid) :
    can_use_commands env st chat tgid =
      (.ok true, { st with tg_whitelist := st.tg_whitelist ++ [tgid] },
       [ExtCall.storeQuery tgid]) ∧
    can_use_commands env { st with tg_whitelist := st.tg_whitelist ++ [tgid] } chat2 tgid =
      (.ok true, { st with tg_whitelist := st.tg_whitelist ++ [tgid] }, []) := by
  refine ⟨?_, can_use_commands_mem env chat2 (by simp)⟩
  simp [can_use_commands, h1, h2, h3, h4]

/-- Witness for C9: bridge admin 7, not whitelisted in the sample state, is
promoted on the first call and short-circuits on the second. -/
theorem can_use_commands_admin_promotion_witness :
    can_use_commands sampleEnv sampleState (.peerChannel 1) 7 =
      (.ok true, { sampleState with tg_whitelist := sampleState.tg_whitelist ++ [7] },
       [ExtCall.storeQuery 7]) ∧
    can_use_commands sampleEnv
        { sampleState with tg_whitelist := sampleState.tg_whitelist ++ [7] } (.peerChat 2) 7 =
      (.ok true, { sampleState with tg_whitelist := sampleState.tg_whitelist ++ [7] }, []) :=
  can_use_commands_admin_promotion sampleEnv sampleState (.peerChannel 1) (.peerChat 2) 7
    ⟨7, true⟩ (by decide) (by decide) rfl rfl

/-- C8: for a user id that is neither whitelisted nor flagged admin in the
user store, can_use_commands on a private (PeerUser) chat reference
returns false, whatever the value of whitelist_group_admins: the
group-admin path never authorizes in non-group contexts. -/
theorem can_use_commands_peer_user_deny (env : Env) (st : BotState) (uid tgid : Int)
    (h1 : tgid ∉ st.tg_whitelist)
    (h2 : ∀ u, env.getUserByTgid tgid = some u → u.is_admin = false) :
    (can_use_commands env st (.peerUser uid) tgid).1 = .ok false := by
  cases hu : env.getUserByTgid tgid with
  | none => simp [can_use_commands, h1, hu, group_admin_check]
  | some u => simp [can_use_commands, h1, hu, h2 u hu, group_admin_check]

/-- Witness for C8: unknown user 9 is denied in a private chat even though
whitelist_group_admins is enabled in the sample state. -/
theorem can_use_commands_peer_user_deny_witness :
    ((9 : Int) ∉ sampleState.tg_whitelist) ∧
    (can_use_commands sampleEnv sampleState (.peerUser 1) 9).1 = .ok false :=
  ⟨by decide,
   can_use_commands_peer_user_deny sampleEnv sampleState 1 9 (by decide)
     (fun u h => by simp [sampleEnv] at h)⟩

/-- C2 counterexample: chat id 9 is absent from the sample registry, yet
remove_chat issues a persistence call (BotChat.delete_by_id runs
unconditionally), contradicting the claim that removing an absent id makes
no call to the persistence layer. -/
theorem remove_chat_absent_persists_cex :
    lookupChat sampleState.chats 9 = none ∧ (remove_chat sampleState 9).2 ≠ [] :=
  ⟨by decide, by decide⟩

/-- C2 as amended: removing an absent id raises no error and leaves the
in-memory registry unchanged, but it always issues exactly one persistence
delete for that id. -/
theorem remove_chat_absent_noop_in_memory (st : BotState) (id : Int)
    (h : lookupChat st.chats id = none) :
    remove_chat st id = (st, [DBCall.deleteById id]) := by
  simp [remove_chat, eraseChat_of_absent h]

/-- Witness for the amended C2: removing absent id 9 from the sample state. -/
theorem remove_chat_absent_noop_in_memory_witness :
    lookupChat sampleState.chats 9 = none ∧
    remove_chat sampleState 9 = (sampleState, [DBCall.deleteById 9]) :=
  ⟨by decide, remove_chat_absent_noop_in_memory sampleState 9 (by decide)⟩

/-- C1 counterexample: user 9 is not whitelisted and not a store admin,
whitelist_group_admins is enabled, and the participant fetch for channel 1
fails with a generic RPC error; can_use_commands then evaluates to that
error — the failure is propagated to the caller, not turned into a false
decision. -/
theorem can_use_commands_error_not_caught_cex :
    (can_use_commands sampleEnv sampleState (.peerChannel 1) 9).1 = .error (.other 0) ∧
    (can_use_commands sampleEnv sampleState (.peerChannel 1) 9).1 ≠ .ok false :=
  ⟨rfl, fun h => Except.noConfusion h⟩

/-- C1 as amended: for a user that is neither whitelisted nor a store
admin, with the group-admin option enabled, a failure of the remote client
during the step-3 live authority check (participant fetch for a channel,
full-chat fetch for a legacy group) is not caught: can_use_commands
propagates exactly that error to its caller instead of returning false. -/
theorem can_use_commands_error_propagates (env : Env) (st : BotState)
    (tgid channel_id chat_id : Int) (e : TgError)
    (h1 : tgid ∉ st.tg_whitelist)
    (h2 : ∀ u, env.getUserByTgid tgid = some u → u.is_admin = false)
    (h3 : st.whitelist_group_admins = true) :
    (env.getParticipant channel_id tgid = .error e →
      (can_use_commands env st (.peerChannel channel_id) tgid).1 = .error e) ∧
    (env.getFullChat chat_id = .error e →
      (can_use_commands env st (.peerChat chat_id) tgid).1 = .error e) := by
  constructor <;> intro hq
  · cases hu : env.getUserByTgid tgid with
    | none => simp [can_use_commands, group_admin_check, h1, hu, h3, hq]
    | some u => simp [can_use_commands, group_admin_check, h1, hu, h2 u hu, h3, hq]
  · cases hu : env.getUserByTgid tgid with
    | none => simp [can_use_commands, group_admin_check, h1, hu, h3, hq]
    | some u => simp [can_use_commands, group_admin_check, h1, hu, h2 u hu, h3, hq]

/-- Witness for the amended C1: the failing participant fetch of the
sample client surfaces as the propagated error for user 9 in channel 1. -/
theorem can_use_commands_error_propagates_witness :
    (can_use_commands sampleEnv sampleState (.peerChannel 1) 9).1 = .error (.other 0) :=
  (can_use_commands_error_propagates sampleEnv sampleState 9 1 2 (.other 0)
    (by decide) (fun u h => by simp [sampleEnv] at h) rfl).1 rfl

/-- A resolver for the C3 counterexample (no string entry resolves). -/
def sampleResolve : String → InputEntity := fun _ => .otherEntity

/-- The configured whitelist of the C3 counterexample, as produced by
init_permissions from the static configuration entry 5. -/
def sampleConfiguredWhitelist : List Int :=
  init_permissions sampleResolve [.int 5]

/-- A bot state freshly initialized with the configured whitelist. -/
def sampleConfiguredState : BotState :=
  { chats := []
    tg_whitelist := sampleConfiguredWhitelist
    whitelist_group_admins := false
    tgid := 100
    tg_username := "mybot" }

/-- C3 counterexample: the collection holding the configured whitelist is
not read-only after initialization — a single can_use_commands call for
bridge admin 7 mutates tg_whitelist, the very list init_permissions
produced, because the code keeps configured entries and promoted admins in
one list. -/
theorem whitelist_not_read_only_cex :
    (can_use_commands sampleEnv sampleConfiguredState (.peerUser 1) 7).2.1.tg_whitelist
      ≠ sampleConfiguredWhitelist := by decide

/-- C3 as amended: the code owns a single mutable list tg_whitelist seeded
from configuration; admin promotion appends to that same list, so the
collection is modified at runtime, but it only ever grows — after any
can_use_commands call the previous whitelist is an initial segment of the
new one, so configured entries are never lost. -/
theorem can_use_commands_whitelist_only_grows (env : Env) (st : BotState)
    (chat : TypePeer) (tgid : Int) :
    ∃ appended, (can_use_commands env st chat tgid).2.1.tg_whitelist
      = st.tg_whitelist ++ appended := by
  by_cases h : tgid ∈ st.tg_whitelist
  · exact ⟨[], by simp [can_use_commands, h]⟩
  · cases hu : env.getUserByTgid tgid with
    | none => exact ⟨[], by simp [can_use_commands, h, hu]⟩
    | some u =>
      by_cases ha : u.is_admin
      · exact ⟨[u.tgid], by simp [can_use_commands, h, hu, ha]⟩
      · exact ⟨[], by simp [can_use_commands, h, hu, ha]⟩

/-- C6: a message text matches command X exactly when, after lowercasing,
it equals the bare token, equals the bot-targeted token, or extends either
token with a space; and in particular the three spec examples hold
(matching is case-insensitive, a targeted command keeps its arguments, and
an undelimited longer word does not match). -/
theorem match_command_spec :
    (∀ tg_username text command : String,
      match_command tg_username text command = true ↔
        (lowerStr text = "/" ++ lowerStr command ∨
         lowerStr text = "/" ++ lowerStr command ++ "@" ++ lowerStr tg_username ∨
         startsWithStr (lowerStr text) ("/" ++ lowerStr command ++ " ") = true ∨
         startsWithStr (lowerStr text)
           ("/" ++ lowerStr command ++ "@" ++ lowerStr tg_username ++ " ") = true)) ∧
    match_command "mybot" "/PORTAL" "portal" = true ∧
    match_command "mybot" "/portal@mybot extra" "portal" = true ∧
    match_command "mybot" "/portalish" "portal" = false := by
  refine ⟨fun u t c => ?_, by decide, by decide, by decide⟩
  have heq : match_command u t c =
      (lowerStr t == "/" ++ lowerStr c ||
       lowerStr t == "/" ++ lowerStr c ++ "@" ++ lowerStr u ||
       startsWithStr (lowerStr t) ("/" ++ lowerStr c ++ " ") ||
       startsWithStr (lowerStr t) ("/" ++ lowerStr c ++ "@" ++ lowerStr u ++ " ")) := by
    simp only [match_command]
    cases h1 : lowerStr t == "/" ++ lowerStr c <;>
      cases h2 : lowerStr t == "/" ++ lowerStr c ++ "@" ++ lowerStr u <;>
        cases h3 : startsWithStr (lowerStr t) ("/" ++ lowerStr c ++ " ") <;>
          cases h4 : startsWithStr (lowerStr t) ("/" ++ lowerStr c ++ "@" ++ lowerStr u ++ " ") <;>
            simp [h1, h2, h3, h4]
  rw [heq]
  simp [Bool.or_eq_true, beq_iff_eq, or_assoc]

/-- C7: processing a chat-migration service action on a registered legacy
group performs one registry remove of the old id followed by one add of
the new id with type "channel" (one persistence delete then one
persistence insert), leaving a registry that maps the new id to "channel"
and no longer contains the old id. -/
theorem handle_service_message_migration (st : BotState) (old new : Int)
    (h1 : lookupChat st.chats old = some "chat")
    (h2 : lookupChat st.chats new = none)
    (h3 : old ≠ new) :
    lookupChat (handle_service_message st ⟨.peerChat old, .chatMigrateTo new⟩).1.chats new
      = some "channel" ∧
    lookupChat (handle_service_message st ⟨.peerChat old, .chatMigrateTo new⟩).1.chats old
      = none ∧
    (handle_service_message st ⟨.peerChat old, .chatMigrateTo new⟩).2
      = [DBCall.deleteById old, DBCall.insert new "channel"] := by
  have hnew : lookupChat (eraseChat st.chats old) new = none :=
    lookupChat_eraseChat_none old h2
  have hstep : handle_service_message st ⟨.peerChat old, .chatMigrateTo new⟩ =
      ({ st with chats := eraseChat st.chats old ++ [(new, "channel")] },
       [DBCall.deleteById old, DBCall.insert new "channel"]) := by
    simp [handle_service_message, resolveServicePeer, remove_chat, add_chat, hnew]
  rw [hstep]
  refine ⟨lookupChat_append_absent _ hnew, ?_, rfl⟩
  rw [lookupChat_append_ne _ _ h3]
  exact lookupChat_eraseChat_self _ _

/-- Witness for C7: migrating registered group 5 to channel 9 in the
sample state. -/
theorem handle_service_message_migration_witness :
    lookupChat (handle_service_message sampleState ⟨.peerChat 5, .chatMigrateTo 9⟩).1.chats 9
      = some "channel" ∧
    lookupChat (handle_service_message sampleState ⟨.peerChat 5, .chatMigrateTo 9⟩).1.chats 5
      = none ∧
    (handle_service_message sampleState ⟨.peerChat 5, .chatMigrateTo 9⟩).2
      = [DBCall.deleteById 5, DBCall.insert 9 "channel"] :=
  handle_service_message_migration sampleState 5 9 (by decide) (by decide) (by decide)

theorem reconcileGroups_not_contains {st : BotState} {x : Int} (response : List TLChat)
    (h : lookupChat st.chats x = none) :
    lookupChat (reconcileGroups st response).1.chats x = none := by
  induction response generalizing st with
  | nil => exact h
  | cons c rest ih =>
    by_cases hr : c.shouldRemove = true
    · simp only [reconcileGroups, hr, if_pos, remove_chat]
      exact ih (lookupChat_eraseChat_none c.id h)
    · simp only [reconcileGroups]
      rw [if_neg hr]
      exact ih h

theorem reconcileGroups_removes {st : BotState} (response : List TLChat) (c : TLChat)
    (hmem : c ∈ response) (hr : c.shouldRemove = true) :
    lookupChat (reconcileGroups st response).1.chats c.id = none := by
  induction response generalizing st with
  | nil => cases hmem
  | cons c' rest ih =>
    rcases List.mem_cons.mp hmem with hEq | hmem'
    · subst hEq
      simp only [reconcileGroups, hr, if_pos, remove_chat]
      exact reconcileGroups_not_contains rest (lookupChat_eraseChat_self _ _)
    · by_cases hr' : c'.shouldRemove = true
      · simp only [reconcileGroups, hr', if_pos, remove_chat]
        exact ih hmem'
      · simp only [reconcileGroups]
        rw [if_neg hr']
        exact ih hmem'

theorem reconcileChannels_not_contains (g : Int → Except TgError Unit)
    {st : BotState} {x : Int} (ids : List Int)
    (h : lookupChat st.chats x = none) :
    lookupChat (reconcileChannels g st ids).1.chats x = none := by
  induction ids generalizing st with
  | nil => exact h
  | cons id rest ih =>
    cases hg : g id with
    | ok v => simp only [reconcileChannels, hg]; exact ih h
    | error e =>
      cases e with
      | channelPrivate =>
        simp only [reconcileChannels, hg, remove_chat]
        exact ih (lookupChat_eraseChat_none id h)
      | channelInvalid =>
        simp only [reconcileChannels, hg, remove_chat]
        exact ih (lookupChat_eraseChat_none id h)
      | other n => simp only [reconcileChannels, hg]; exact h

theorem reconcileChannels_no_error (g : Int → Except TgError Unit)
    (st : BotState) (ids : List Int)
    (hsoft : ∀ i e, g i = .error e → e = .channelPrivate ∨ e = .channelInvalid) :
    (reconcileChannels g st ids).2.2 = none := by
  induction ids generalizing st with
  | nil => rfl
  | cons id rest ih =>
    cases hg : g id with
    | ok v => simp only [reconcileChannels, hg]; exact ih _
    | error e =>
      rcases hsoft id e hg with h' | h' <;> subst h' <;>
        simp only [reconcileChannels, hg, remove_chat] <;> exact ih _

theorem reconcileChannels_removes_soft (g : Int → Except TgError Unit)
    {st : BotState} (ids : List Int) (id : Int) (e : TgError)
    (hsoft : ∀ i e', g i = .error e' → e' = .channelPrivate ∨ e' = .channelInvalid)
    (hmem : id ∈ ids) (herr : g id = .error e) :
    lookupChat (reconcileChannels g st ids).1.chats id = none := by
  induction ids generalizing st with
  | nil => cases hmem
  | cons i rest ih =>
    cases hg : g i with
    | ok v =>
      have hne : id ≠ i := by
        intro hEq
        rw [hEq, hg] at herr
        cases herr
      have hmem' : id ∈ rest := by
        rcases List.mem_cons.mp hmem with h' | h'
        · exact absurd h' hne
        · exact h'
      simp only [reconcileChannels, hg]
      exact ih hmem'
    | error e' =>
      rcases hsoft i e' hg with h' | h' <;> subst h' <;>
        simp only [reconcileChannels, hg, remove_chat]
      · by_cases hid : id = i
        · subst hid
          exact reconcileChannels_not_contains g rest (lookupChat_eraseChat_self _ _)
        · have hmem' : id ∈ rest := by
            rcases List.mem_cons.mp hmem with h'' | h''
            · exact absurd h'' hid
            · exact h''
          exact ih hmem'
      · by_cases hid : id = i
        · subst hid
          exact reconcileChannels_not_contains g rest (lookupChat_eraseChat_self _ _)
        · have hmem' : id ∈ rest := by
            rcases List.mem_cons.mp hmem with h'' | h''
            · exact absurd h'' hid
            · exact h''
          exact ih hmem'

theorem reconcileChannels_hard_error (g : Int → Except TgError Unit)
    (st : BotState) (id : Int) (rest : List Int) (e : TgError)
    (hg : g id = .error e) (h1 : e ≠ .channelPrivate) (h2 : e ≠ .channelInvalid) :
    reconcileChannels g st (id :: rest) = (st, [], some e) := by
  cases e with
  | channelPrivate => exact absurd rfl h1
  | channelInvalid => exact absurd rfl h2
  | other n => simp [reconcileChannels, hg]

/-- C4: during startup reconciliation, (i) every chat the bulk group query
reports forbidden, left or deactivated is absent from the resulting
registry; (ii) when the per-channel client raises only access-loss errors
(channel private / channel invalid), every channel whose query errored is
removed and no error is propagated; (iii) a per-channel query failing with
any other error makes the channel pass propagate exactly that error,
leaving the registry untouched at that point (no removal, no persistence
call from that pass); (iv) a failing bulk group query likewise propagates
and removes nothing. -/
theorem post_login_reconcile_spec :
    (∀ (st : BotState) (response : List TLChat) (c : TLChat),
        c ∈ response → c.shouldRemove = true →
        lookupChat (reconcileGroups st response).1.chats c.id = none) ∧
    (∀ (g : Int → Except TgError Unit) (st : BotState) (ids : List Int) (id : Int) (e : TgError),
        (∀ i e', g i = .error e' → e' = .channelPrivate ∨ e' = .channelInvalid) →
        id ∈ ids → g id = .error e →
        lookupChat (reconcileChannels g st ids).1.chats id = none ∧
        (reconcileChannels g st ids).2.2 = none) ∧
    (∀ (g : Int → Except TgError Unit) (st : BotState) (id : Int) (rest : List Int) (e : TgError),
        g id = .error e → e ≠ .channelPrivate → e ≠ .channelInvalid →
        reconcileChannels g st (id :: rest) = (st, [], some e)) ∧
    (∀ (getChats : List Int → Except TgError (List TLChat)) (g : Int → Except TgError Unit)
        (st : BotState) (e : TgError),
        getChats ((st.chats.filter (fun p => p.2 == "chat")).map (·.1)) = .error e →
        post_login_reconcile getChats g st = (st, [], some e)) :=
  ⟨fun _ response c hmem hr => reconcileGroups_removes response c hmem hr,
   fun g st ids id e hsoft hmem herr =>
     ⟨reconcileChannels_removes_soft g ids id e hsoft hmem herr,
      reconcileChannels_no_error g st ids hsoft⟩,
   fun g st id rest e hg hp hi => reconcileChannels_hard_error g st id rest e hg hp hi,
   fun getChats g st e hg => by simp [post_login_reconcile, hg]⟩

/-- A client whose channel queries always report loss of access. -/
def sampleGetChannelsSoft : Int → Except TgError Unit := fun _ => .error .channelPrivate

/-- A client whose channel queries always fail with an unexpected error. -/
def sampleGetChannelsHard : Int → Except TgError Unit := fun _ => .error (.other 2)

/-- A client whose bulk chat query fails with an unexpected error. -/
def sampleGetChatsFail : List Int → Except TgError (List TLChat) := fun _ => .error (.other 3)

/-- Witness for C4: all four reconciliation behaviours at concrete inputs
over the sample state. -/
theorem post_login_reconcile_spec_witness :
    lookupChat (reconcileGroups sampleState [TLChat.chatForbidden 5]).1.chats 5 = none ∧
    lookupChat (reconcileChannels sampleGetChannelsSoft sampleState [5]).1.chats 5 = none ∧
    reconcileChannels sampleGetChannelsHard sampleState [5] = (sampleState, [], some (.other 2)) ∧
    post_login_reconcile sampleGetChatsFail sampleGetChannelsSoft sampleState
      = (sampleState, [], some (.other 3)) :=
  ⟨post_login_reconcile_spec.1 sampleState [TLChat.chatForbidden 5] (TLChat.chatForbidden 5)
     (by simp) rfl,
   (post_login_reconcile_spec.2.1 sampleGetChannelsSoft sampleState [5] 5 .channelPrivate
     (fun _ e' h => Or.inl (Except.error.inj h).symm) (by simp) rfl).1,
   post_login_reconcile_spec.2.2.1 sampleGetChannelsHard sampleState 5 [] (.other 2)
     rfl (by decide) (by decide),
   post_login_reconcile_spec.2.2.2 sampleGetChatsFail sampleGetChannelsSoft sampleState
     (.other 3) rfl⟩

theorem update_newMessage_false (env : Env) (st : BotState) (m : TLMessage)
    (r : Bool × BotState × List DBCall × List String)
    (h : update env st (.updateNewMessage m) = .ok r) : r.1 = false := by
  cases m with
  | service sm =>
    injection h with h1
    rw [← h1]
  | plain pm =>
    simp only [update] at h
    cases hE : is_bot_command pm.entities with
    | false =>
      rw [hE] at h
      rw [if_neg (by simp)] at h
      injection h with h1
      rw [← h1]
    | true =>
      rw [hE] at h
      rw [if_pos rfl] at h
      cases hc : handle_command env st ⟨pm.text, pm.is_private, pm.to_id, pm.from_id⟩ with
      | ok p =>
        rw [hc] at h
        obtain ⟨st1, replies⟩ := p
        injection h with h1
        rw [← h1]
      | error e =>
        rw [hc] at h
        exact Except.noConfusion h

/-- C10: the dispatcher entry point never returns True: whenever update
returns normally — including when it processed a service message
(mutating the registry) or routed a bot command — the returned Bool is
False; the only other outcome is a propagated collaborator error, never a
True result. -/
theorem update_returns_false (env : Env) (st : BotState) (upd : TLUpdate)
    (r : Bool × BotState × List DBCall × List String)
    (h : update env st upd = .ok r) : r.1 = false := by
  cases upd with
  | otherUpdate =>
    injection h with h1
    rw [← h1]
  | updateNewMessage m => exact update_newMessage_false env st m r h
  | updateNewChannelMessage m => exact update_newMessage_false env st m r h

/-- Witness for C10: an ignored update kind returns False. -/
theorem update_returns_false_witness :
    update sampleEnv sampleState .otherUpdate = .ok (false, sampleState, [], []) ∧
    ((false, sampleState, ([] : List DBCall), ([] : List String)) :
        Bool × BotState × List DBCall × List String).1 = false :=
  ⟨rfl, update_returns_false sampleEnv sampleState .otherUpdate
          (false, sampleState, [], []) rfl⟩

end TelegramBot
